import Mathlib

/-!
Formal model of the dynamic product catalog component of a Stripe-backed
subscription server.  The definitions below are a shallow embedding of the
`ProductCatalogService` class and its HTTP read path: raw provider records,
the organize pass (`organizeProductCatalog`), the module-level cache with
its staleness rule (`getProductCatalog`), price validation
(`validatePriceId`) and the catalog read endpoint.  External effects
(the Stripe list calls, `JSON.parse`, the wall clock) are passed in as
explicit values, and the mutable module-level cache becomes explicit state
passing: each operation maps the pre-state to the post-state together with
its returned (or thrown) value.
-/

namespace StripeServer

/-- The string-to-string metadata object attached to a provider product.
Only the four keys read by the organize pass are modelled; a missing key is
`none` (JS `undefined`). -/
structure Metadata where
  plan_id : Option String
  plan_type : Option String
  display_order : Option String
  features : Option String
deriving Repr, DecidableEq

/-- A raw product record as returned by the provider's product list call. -/
structure RawProduct where
  id : String
  name : String
  description : Option String
  active : Bool
  metadata : Metadata
deriving Repr, DecidableEq

/-- The `product` field of a raw price: either a bare identifier string or
(under the expand option) a nested product object carrying the identifier. -/
inductive ProductRef where
  | str (id : String)
  | obj (id : String)
deriving Repr, DecidableEq

/-- The recurring descriptor of a price (`price.recurring`). -/
structure Recurring where
  interval : String
  interval_count : Int
deriving Repr, DecidableEq

/-- A raw price record as returned by the provider's price list call. -/
structure RawPrice where
  id : String
  product : ProductRef
  active : Bool
  unit_amount : Int
  currency : String
  recurring : Option Recurring
deriving Repr, DecidableEq

/-- Characters matched by the JS regex class `\s` (ASCII whitespace plus
no-break space; the rarer Unicode space code points are not modelled). -/
def jsIsSpace (c : Char) : Bool :=
  c == ' ' || c == '\t' || c == '\n' || c == '\r' ||
    c == Char.ofNat 11 || c == Char.ofNat 12 || c == Char.ofNat 160

/-- Dropping a prefix never lengthens a list (termination helper). -/
theorem length_dropWhile_le {α : Type} (p : α → Bool) (l : List α) :
    (l.dropWhile p).length ≤ l.length := by
  induction l with
  | nil => simp
  | cons a l ih =>
    rw [List.dropWhile_cons]
    by_cases h : p a = true
    · simp only [h, if_true, List.length_cons]
      omega
    · simp [h]

/-- Model of `replace(/\s+/g, '-')`: each maximal run of whitespace becomes one
hyphen. -/
def collapseWs : List Char → List Char
  | [] => []
  | c :: cs =>
    if jsIsSpace c then '-' :: collapseWs (cs.dropWhile jsIsSpace)
    else c :: collapseWs cs
termination_by l => l.length
decreasing_by
  · have h := length_dropWhile_le jsIsSpace cs
    simp only [List.length_cons]
    omega
  · simp only [List.length_cons]
    omega

/-- Model of `name.toLowerCase().replace(/\s+/g, '-')` (lowercasing via `Char.toLower`,
which agrees with JS on ASCII). -/
def slugify (s : String) : String :=
  String.mk (collapseWs (s.data.map Char.toLower))

/-- JS `a || b` for an optional string: `undefined` and `""` are falsy. -/
def jsOrStr (o : Option String) (d : String) : String :=
  match o with
  | none => d
  | some s => if s = "" then d else s

/-- Value of a hexadecimal digit character. -/
def hexVal (c : Char) : Nat :=
  if c.isDigit then c.toNat - 48
  else if 'a' ≤ c && c ≤ 'f' then c.toNat - 97 + 10
  else c.toNat - 65 + 10

/-- Whether a character is a hexadecimal digit. -/
def isHexDigit (c : Char) : Bool :=
  c.isDigit || ('a' ≤ c && c ≤ 'f') || ('A' ≤ c && c ≤ 'F')

/-- JS `parseInt(s)` with no radix argument: skip leading whitespace, read an
optional sign, then either a `0x`/`0X`-prefixed hexadecimal numeral or a
decimal numeral, ignoring trailing garbage.  `none` models `NaN`. -/
def jsParseInt (s : String) : Option Int :=
  let cs := s.data.dropWhile jsIsSpace
  let sign : Int := match cs with | '-' :: _ => -1 | _ => 1
  let body := match cs with | '-' :: rest => rest | '+' :: rest => rest | _ => cs
  let isHex := match body with | '0' :: c :: _ => c == 'x' || c == 'X' | _ => false
  if isHex then
    let ds := (body.drop 2).takeWhile isHexDigit
    if ds.isEmpty then none
    else some (sign * ds.foldl (fun a d => 16 * a + (hexVal d : Int)) 0)
  else
    let ds := body.takeWhile Char.isDigit
    if ds.isEmpty then none
    else some (sign * ds.foldl (fun a d => 10 * a + ((d.toNat - 48 : Nat) : Int)) 0)

/-- Model of `parseInt(product.metadata.display_order) || 999`: both `NaN` (parse
failure) and the number `0` are falsy in JS, so both take the 999 default. -/
def displayOrderOf (md : Metadata) : Int :=
  match md.display_order with
  | none => 999
  | some s =>
    match jsParseInt s with
    | none => 999
    | some n => if n = 0 then 999 else n

/-- Model of `product.metadata.plan_id || product.name.toLowerCase().replace(/\s+/g, '-')`. -/
def planIdOf (p : RawProduct) : String :=
  jsOrStr p.metadata.plan_id (slugify p.name)

/-- Model of `product.metadata.plan_type || 'subscription'`. -/
def planTypeOf (md : Metadata) : String :=
  jsOrStr md.plan_type "subscription"

/-- The builtin `JSON.parse` is a host function; the model abstracts it as a parameter
returning `none` exactly when the source string is malformed JSON (the
organize pass depends only on success or failure, and on the parsed string
list on success). -/
abbrev JsonParse := String → Option (List String)

/-- Model of `metadata.features ? JSON.parse(metadata.features) : []`:
a missing or empty (falsy) features string yields `[]` without parsing;
otherwise the parse result, `none` modelling a thrown parse error. -/
def featuresOf (jp : JsonParse) (md : Metadata) : Option (List String) :=
  match md.features with
  | none => some []
  | some s => if s = "" then some [] else jp s

/-- Model of `price.product === product.id`: strict equality of the price's product
reference with the product identifier string.  An expanded (object)
reference is never `===` a string. -/
def refMatches (ref : ProductRef) (productId : String) : Bool :=
  match ref with
  | .str s => s == productId
  | .obj _ => false

/-- One entry of a plan's price mapping; recurring variants carry the
interval and interval count, one-time variants do not. -/
structure PriceVariant where
  priceId : String
  unitAmount : Int
  currency : String
  interval : Option String
  intervalCount : Option Int
deriving Repr, DecidableEq

/-- The `priceVariations` object built per product: a JS object whose only
possible keys are `monthly`, `yearly` and `one_time`. -/
structure PriceVariations where
  monthly : Option PriceVariant
  yearly : Option PriceVariant
  one_time : Option PriceVariant
deriving Repr, DecidableEq

/-- The empty `{}` the per-product loop starts from. -/
def PriceVariations.empty : PriceVariations := ⟨none, none, none⟩

/-- The variant object stored for a price. -/
def toVariant (p : RawPrice) : PriceVariant :=
  match p.recurring with
  | some r => ⟨p.id, p.unit_amount, p.currency, some r.interval, some r.interval_count⟩
  | none => ⟨p.id, p.unit_amount, p.currency, none, none⟩

/-- One iteration of the `productPrices.forEach` body: a recurring price is
keyed `monthly` when its interval is `month` and `yearly` otherwise; a
non-recurring price is keyed `one_time`.  Assignment overwrites. -/
def addPrice (acc : PriceVariations) (p : RawPrice) : PriceVariations :=
  match p.recurring with
  | some r =>
    if r.interval == "month" then { acc with monthly := some (toVariant p) }
    else { acc with yearly := some (toVariant p) }
  | none => { acc with one_time := some (toVariant p) }

/-- The whole `productPrices.forEach` loop. -/
def buildVariations (ps : List RawPrice) : PriceVariations :=
  ps.foldl addPrice PriceVariations.empty

/-- The key under which `addPrice` stores a given price. -/
def priceKey (p : RawPrice) : String :=
  match p.recurring with
  | some r => if r.interval == "month" then "monthly" else "yearly"
  | none => "one_time"

/-- Reading `planPrices[billingCycle]` for an arbitrary string key: any key other
than the three populated ones reads as `undefined`. -/
def variationAt (v : PriceVariations) (cycle : String) : Option PriceVariant :=
  if cycle == "monthly" then v.monthly
  else if cycle == "yearly" then v.yearly
  else if cycle == "one_time" then v.one_time
  else none

/-- One organized product as pushed onto `organizedProducts`. -/
structure Plan where
  id : String
  name : String
  description : Option String
  planId : String
  planType : String
  displayOrder : Int
  features : List String
  metadata : Metadata
  prices : PriceVariations
  active : Bool
deriving Repr, DecidableEq

/-- The `organizedPrices` object: a string-keyed JS object modelled as an
insertion-ordered association list. -/
abbrev PricesIndex := List (String × PriceVariations)

/-- JS object assignment `organizedPrices[planId] = v`: replace in place if
the key exists, append otherwise. -/
def upsert (al : PricesIndex) (k : String) (v : PriceVariations) : PricesIndex :=
  match al with
  | [] => [(k, v)]
  | (k', v') :: rest => if k' == k then (k, v) :: rest else (k', v') :: upsert rest k v

/-- JS object read `organizedPrices[k]`. -/
def alGet (al : PricesIndex) (k : String) : Option PriceVariations :=
  match al with
  | [] => none
  | (k', v) :: rest => if k' == k then some v else alGet rest k

/-- Result of one organize pass. -/
structure Catalog where
  products : List Plan
  prices : PricesIndex
deriving Repr, DecidableEq

/-- The comparator `(a, b) => a.displayOrder - b.displayOrder` as the
ordering it induces. -/
def planLe (a b : Plan) : Prop := a.displayOrder ≤ b.displayOrder

instance : DecidableRel planLe :=
  fun a b => inferInstanceAs (Decidable (a.displayOrder ≤ b.displayOrder))

instance : IsTotal Plan planLe := ⟨fun a b => le_total a.displayOrder b.displayOrder⟩

instance : IsTrans Plan planLe := ⟨fun _ _ _ h1 h2 => le_trans h1 h2⟩

/-- The `products.forEach` loop of `organizeProductCatalog`, with the two
accumulators made explicit.  A `JSON.parse` failure on any product's
features aborts the whole pass (`none`); otherwise the built plan is pushed
and its variations stored under its planId. -/
def organizeLoop (jp : JsonParse) (prices : List RawPrice) :
    List RawProduct → List Plan → PricesIndex → Option (List Plan × PricesIndex)
  | [], plans, index => some (plans, index)
  | product :: rest, plans, index =>
    let planId := planIdOf product
    let productPrices := prices.filter (fun price => refMatches price.product product.id)
    let priceVariations := buildVariations productPrices
    match featuresOf jp product.metadata with
    | none => none
    | some feats =>
      let plan : Plan :=
        { id := product.id
          name := product.name
          description := product.description
          planId := planId
          planType := planTypeOf product.metadata
          displayOrder := displayOrderOf product.metadata
          features := feats
          metadata := product.metadata
          prices := priceVariations
          active := product.active }
      organizeLoop jp prices rest (plans ++ [plan]) (upsert index planId priceVariations)

/-- Model of `organizeProductCatalog(products, prices)`: run the loop, then sort the
plan list by `displayOrder` ascending.  `Array.prototype.sort` is stable
(ES2019) and the comparator is a consistent total preorder, so it is
modelled by stable insertion sort. -/
def organizeProductCatalog (jp : JsonParse) (products : List RawProduct)
    (prices : List RawPrice) : Option Catalog :=
  match organizeLoop jp prices products [] [] with
  | none => none
  | some (plans, index) => some ⟨List.insertionSort planLe plans, index⟩

/-- The module-level `productCatalogCache` object. -/
structure CacheState where
  products : List Plan
  prices : PricesIndex
  lastUpdated : Option Int
  cacheExpiry : Int
deriving Repr, DecidableEq

/-- The cache as initialised at module load: empty, never updated. -/
def initialCache : CacheState :=
  { products := [], prices := [], lastUpdated := none, cacheExpiry := 5 * 60 * 1000 }

/-- Joint outcome of the two provider list calls (`stripe.products.list`
and `stripe.prices.list`); a failure of either is a gateway failure. -/
abbrev GatewayResult := Except String (List RawProduct × List RawPrice)

/-- What a refresh can throw. -/
inductive FetchError where
  | gatewayFailure (msg : String)
  | organizeFailure
deriving Repr, DecidableEq

/-- Model of `fetchProducts()`: on gateway failure the error is rethrown; on an
organize failure likewise; only after a fully successful organize pass is
the cache assigned, wholesale.  Returns the post-state and the returned or
thrown value. -/
def fetchProducts (jp : JsonParse) (gw : GatewayResult) (st : CacheState)
    (now : Int) : CacheState × Except FetchError CacheState :=
  match gw with
  | .error msg => (st, .error (.gatewayFailure msg))
  | .ok (products, prices) =>
    match organizeProductCatalog jp products prices with
    | none => (st, .error .organizeFailure)
    | some cat =>
      let st' : CacheState :=
        { products := cat.products
          prices := cat.prices
          lastUpdated := some now
          cacheExpiry := 5 * 60 * 1000 }
      (st', .ok st')

/-- Model of `!cache.lastUpdated || (now - lastUpdated) > cacheExpiry`:
a `null` timestamp is falsy, and so is the number 0. -/
def cacheExpired (st : CacheState) (now : Int) : Bool :=
  match st.lastUpdated with
  | none => true
  | some t => t == 0 || decide (now - t > st.cacheExpiry)

/-- The refresh condition of `getProductCatalog`:
`forceRefresh || cacheExpired || productCatalogCache.products.length === 0`. -/
def getDoesFetch (st : CacheState) (now : Int) (forceRefresh : Bool) : Bool :=
  forceRefresh || cacheExpired st now || st.products.length == 0

/-- Number of `fetchProducts` invocations (each performing one round of
gateway fetches) a single `getProductCatalog` call makes. -/
def getFetchCount (st : CacheState) (now : Int) (forceRefresh : Bool) : Nat :=
  if getDoesFetch st now forceRefresh then 1 else 0

/-- Model of `getProductCatalog(forceRefresh)`: refresh when forced, stale or empty,
otherwise return the stored cache unchanged. -/
def getProductCatalog (jp : JsonParse) (gw : GatewayResult) (st : CacheState)
    (now : Int) (forceRefresh : Bool) : CacheState × Except FetchError CacheState :=
  if getDoesFetch st now forceRefresh then fetchProducts jp gw st now
  else (st, .ok st)

/-- The lookup performed by `validatePriceId` on the catalog it read:
`catalog.prices[planId][billingCycle].priceId`, `none` when either key is
absent. -/
def lookupPrice (index : PricesIndex) (planId billingCycle : String) : Option String :=
  match alGet index planId with
  | none => none
  | some planPrices =>
    match variationAt planPrices billingCycle with
    | none => none
    | some v => some v.priceId

/-- Model of `validatePriceId(planId, billingCycle)`: read the catalog (implicit
non-forced refresh) and look the pair up; a thrown refresh error
propagates. -/
def validatePriceId (jp : JsonParse) (gw : GatewayResult) (st : CacheState)
    (now : Int) (planId billingCycle : String) :
    CacheState × Except FetchError (Option String) :=
  match getProductCatalog jp gw st now false with
  | (st', .error e) => (st', .error e)
  | (st', .ok catalog) => (st', .ok (lookupPrice catalog.prices planId billingCycle))

/-- Model of `getProductByPlanId(planId)`: linear scan of the read catalog. -/
def getProductByPlanId (jp : JsonParse) (gw : GatewayResult) (st : CacheState)
    (now : Int) (planId : String) :
    CacheState × Except FetchError (Option Plan) :=
  match getProductCatalog jp gw st now false with
  | (st', .error e) => (st', .error e)
  | (st', .ok catalog) => (st', .ok (catalog.products.find? (fun p => p.planId == planId)))

/-- What the `GET /products` handler sends back. -/
inductive ProductsResponse where
  | success (products : List Plan) (lastUpdated : Option Int) (cacheExpiry : Int)
  | serverError (e : FetchError)
deriving Repr, DecidableEq

/-- The `GET /products` handler: serve the catalog read, or a 500 error
response when the read (including any refresh it triggered) threw. -/
def handleGetProducts (jp : JsonParse) (gw : GatewayResult) (st : CacheState)
    (now : Int) (forceRefresh : Bool) : CacheState × ProductsResponse :=
  match getProductCatalog jp gw st now forceRefresh with
  | (st', .ok catalog) => (st', .success catalog.products catalog.lastUpdated catalog.cacheExpiry)
  | (st', .error e) => (st', .serverError e)

/-! ### Concrete fixtures used by witnesses and counterexamples -/

/-- A parse oracle on which every features string parses to `[]`. -/
def jpEmpty : JsonParse := fun _ => some []

/-- A parse oracle on which every features string is malformed. -/
def jpFail : JsonParse := fun _ => none

/-- An active product with explicit plan id and display order. -/
def exProduct : RawProduct :=
  ⟨"prod_123", "Essential Plan", none, true, ⟨some "essential", none, some "1", none⟩⟩

/-- A second product with the same display order (a sort tie). -/
def exProduct2 : RawProduct :=
  ⟨"prod_456", "Pro Plan", none, true, ⟨some "pro", none, some "1", none⟩⟩

/-- A product whose features metadata is not valid JSON. -/
def exBadProduct : RawProduct :=
  ⟨"prod_bad", "Bad", none, true, ⟨none, none, none, some "not-json"⟩⟩

/-- A monthly recurring price referencing `exProduct` by string. -/
def exMonthPrice : RawPrice := ⟨"price_m", .str "prod_123", true, 4900, "usd", some ⟨"month", 1⟩⟩

/-- A second monthly recurring price for the same product. -/
def exMonthPrice2 : RawPrice := ⟨"price_m2", .str "prod_123", true, 5900, "usd", some ⟨"month", 1⟩⟩

/-- The same price but carrying an expanded (object) product reference. -/
def exObjPrice : RawPrice := ⟨"price_o", .obj "prod_123", true, 4900, "usd", some ⟨"month", 1⟩⟩

/-- The plan organized from `exProduct` with no matching price. -/
def exPlan1 : Plan :=
  ⟨"prod_123", "Essential Plan", none, "essential", "subscription", 1, [],
    ⟨some "essential", none, some "1", none⟩, ⟨none, none, none⟩, true⟩

/-- The plan organized from `exProduct2` with no matching price. -/
def exPlan2 : Plan :=
  ⟨"prod_456", "Pro Plan", none, "pro", "subscription", 1, [],
    ⟨some "pro", none, some "1", none⟩, ⟨none, none, none⟩, true⟩

/-- The price variant organized from `exMonthPrice`. -/
def exVariant : PriceVariant := ⟨"price_m", 4900, "usd", some "month", some 1⟩

/-- The variations object holding only `exVariant` under `monthly`. -/
def exVariations : PriceVariations := ⟨some exVariant, none, none⟩

/-- The plan organized from `exProduct` with `exMonthPrice` matched. -/
def exPlanPriced : Plan :=
  ⟨"prod_123", "Essential Plan", none, "essential", "subscription", 1, [],
    ⟨some "essential", none, some "1", none⟩, exVariations, true⟩

/-- The catalog organized from `[exProduct] / [exMonthPrice]`. -/
def exCatPriced : Catalog := ⟨[exPlanPriced], [("essential", exVariations)]⟩

/-- The catalog organized from `[exProduct, exProduct2] / []`. -/
def exCat : Catalog :=
  ⟨[exPlan1, exPlan2], [("essential", PriceVariations.empty), ("pro", PriceVariations.empty)]⟩

/-- The cache state produced by a successful refresh of
`[exProduct] / [exMonthPrice]` at time 1000. -/
def exFreshCache : CacheState :=
  ⟨[exPlanPriced], [("essential", exVariations)], some 1000, 300000⟩

/-- The cache state produced by a successful refresh that found no products,
at time 1000. -/
def exEmptyFetched : CacheState := ⟨[], [], some 1000, 300000⟩

/-! ### Helper lemmas -/

/-- Reading a key out of the variations object after one `addPrice` step:
the step overwrites exactly the key the price maps to. -/
theorem variationAt_addPrice (acc : PriceVariations) (p : RawPrice) (k : String) :
    variationAt (addPrice acc p) k =
      if priceKey p = k then some (toVariant p) else variationAt acc k := by
  by_cases h1 : k = "monthly"
  · subst h1
    rcases hr : p.recurring with _ | r
    · simp [addPrice, priceKey, variationAt, hr]
    · by_cases hm : r.interval = "month" <;> simp [addPrice, priceKey, variationAt, hr, hm]
  · by_cases h2 : k = "yearly"
    · subst h2
      rcases hr : p.recurring with _ | r
      · simp [addPrice, priceKey, variationAt, hr]
      · by_cases hm : r.interval = "month" <;> simp [addPrice, priceKey, variationAt, hr, hm]
    · by_cases h3 : k = "one_time"
      · subst h3
        rcases hr : p.recurring with _ | r
        · simp [addPrice, priceKey, variationAt, hr]
        · by_cases hm : r.interval = "month" <;> simp [addPrice, priceKey, variationAt, hr, hm]
      · rcases hr : p.recurring with _ | r
        · simp [addPrice, priceKey, variationAt, hr, h1, h2, h3,
            Ne.symm h1, Ne.symm h2, Ne.symm h3]
        · by_cases hm : r.interval = "month" <;>
            simp [addPrice, priceKey, variationAt, hr, hm, h1, h2, h3,
              Ne.symm h1, Ne.symm h2, Ne.symm h3]

/-- Folding `addPrice` over a price list: each key ends up holding the last
price (in iteration order) mapped to it, or the accumulator's entry when no
price maps to it. -/
theorem variationAt_foldl (ps : List RawPrice) (acc : PriceVariations) (k : String) :
    variationAt (ps.foldl addPrice acc) k =
      match ps.reverse.find? (fun p => priceKey p == k) with
      | some p => some (toVariant p)
      | none => variationAt acc k := by
  induction ps generalizing acc with
  | nil => simp
  | cons p ps ih =>
    rw [List.foldl_cons, ih, List.reverse_cons, List.find?_append]
    cases hf : ps.reverse.find? (fun q => priceKey q == k) with
    | some q => simp [Option.or]
    | none =>
      simp only [Option.or, List.find?]
      by_cases hk : priceKey p = k
      · simp [hk, variationAt_addPrice]
      · simp only [show (priceKey p == k) = false by simpa using hk]
        simp [variationAt_addPrice, hk]

/-- The function `buildVariations` characterised: a key holds the last matching price. -/
theorem variationAt_buildVariations (ps : List RawPrice) (k : String) :
    variationAt (buildVariations ps) k =
      (ps.reverse.find? (fun p => priceKey p == k)).map toVariant := by
  rw [buildVariations, variationAt_foldl]
  cases ps.reverse.find? (fun p => priceKey p == k) <;>
    simp [variationAt, PriceVariations.empty]

/-- The last element of a filtered list is the first match on the reversed
list. -/
theorem getLast?_filter {α : Type} (p : α → Bool) (l : List α) :
    (l.filter p).getLast? = l.reverse.find? p := by
  induction l using List.reverseRecOn with
  | nil => simp
  | append_singleton l a ih =>
    rw [List.filter_append, List.reverse_append]
    by_cases hp : p a = true
    · simp [hp, List.getLast?_append_cons]
    · simp only [List.filter_cons, hp]
      simp only [Bool.false_eq_true, if_false, List.filter_nil, List.append_nil,
        List.reverse_singleton, List.singleton_append, List.find?]
      rw [show p a = false by simpa using hp]
      exact ih

/-- The organize loop appends exactly one plan per processed product,
carrying the product's identifier, in input order. -/
theorem organizeLoop_map_id (jp : JsonParse) (prs : List RawPrice) :
    ∀ (ps : List RawProduct) (plans : List Plan) (index : PricesIndex)
      (out : List Plan) (index' : PricesIndex),
      organizeLoop jp prs ps plans index = some (out, index') →
      out.map Plan.id = plans.map Plan.id ++ ps.map RawProduct.id := by
  intro ps
  induction ps with
  | nil =>
    intro plans index out index' h
    simp only [organizeLoop, Option.some.injEq, Prod.mk.injEq] at h
    simp [← h.1]
  | cons product rest ih =>
    intro plans index out index' h
    rw [organizeLoop] at h
    cases hf : featuresOf jp product.metadata with
    | none => rw [hf] at h; exact absurd h (by simp)
    | some feats =>
      rw [hf] at h
      have h2 := ih _ _ _ _ h
      simp only [List.map_append, List.map, List.map_cons] at h2 ⊢
      rw [h2]
      simp

/-- Every plan the organize loop emits comes from some input product and
carries exactly that product's matched price variations. -/
theorem organizeLoop_shape (jp : JsonParse) (prs : List RawPrice) :
    ∀ (ps : List RawProduct) (plans : List Plan) (index : PricesIndex)
      (out : List Plan) (index' : PricesIndex),
      organizeLoop jp prs ps plans index = some (out, index') →
      ∀ plan ∈ out, plan ∈ plans ∨ ∃ product ∈ ps, plan.id = product.id ∧
        plan.prices = buildVariations
          (prs.filter (fun pr => refMatches pr.product product.id)) := by
  intro ps
  induction ps with
  | nil =>
    intro plans index out index' h plan hp
    simp only [organizeLoop, Option.some.injEq, Prod.mk.injEq] at h
    rw [← h.1] at hp
    exact Or.inl hp
  | cons product rest ih =>
    intro plans index out index' h plan hp
    rw [organizeLoop] at h
    cases hf : featuresOf jp product.metadata with
    | none => rw [hf] at h; exact absurd h (by simp)
    | some feats =>
      rw [hf] at h
      rcases ih _ _ _ _ h plan hp with hmem | ⟨q, hq, hid, hpr⟩
      · rw [List.mem_append] at hmem
        rcases hmem with hmem | hmem
        · exact Or.inl hmem
        · refine Or.inr ⟨product, List.mem_cons_self _ _, ?_, ?_⟩
          · rw [List.mem_singleton] at hmem
            rw [hmem]
          · rw [List.mem_singleton] at hmem
            rw [hmem]
      · exact Or.inr ⟨q, List.mem_cons_of_mem _ hq, hid, hpr⟩

/-- Inserting a plan never moves it past another plan of the same display
order: the filter at any fixed display order gains the new plan in front
exactly when it has that order. -/
theorem filter_orderedInsert_key (x : Plan) (L : List Plan) (d : Int) :
    (List.orderedInsert planLe x L).filter (fun a => a.displayOrder == d) =
      if x.displayOrder == d then x :: L.filter (fun a => a.displayOrder == d)
      else L.filter (fun a => a.displayOrder == d) := by
  induction L with
  | nil =>
    simp [List.orderedInsert, List.filter_cons]
  | cons y ys ih =>
    rw [List.orderedInsert]
    by_cases hle : planLe x y
    · rw [if_pos hle]
      simp [List.filter_cons]
    · rw [if_neg hle, List.filter_cons, List.filter_cons, ih]
      have hlt : y.displayOrder < x.displayOrder := by
        simpa [planLe, not_le] using hle
      by_cases hx : (x.displayOrder == d)
      · have hxd : x.displayOrder = d := by simpa using hx
        have hy : (y.displayOrder == d) = false := by
          simp only [beq_eq_false_iff_ne, ne_eq]
          omega
        simp [hx, hy]
      · simp [hx]

/-- Stability of the displayOrder sort: restricted to any one display
order, the sorted list equals the unsorted one. -/
theorem filter_insertionSort_key (l : List Plan) (d : Int) :
    (List.insertionSort planLe l).filter (fun a => a.displayOrder == d) =
      l.filter (fun a => a.displayOrder == d) := by
  induction l with
  | nil => rfl
  | cons x l ih =>
    rw [List.insertionSort, filter_orderedInsert_key, List.filter_cons]
    by_cases hx : (x.displayOrder == d) <;> simp [hx, ih]

/-! ### Claim theorems -/

/-- C10: for every product whose `display_order` metadata is a string that
`parseInt` reads as the integer 0, the derived display order is the 999
default (0 is falsy in JS), not 0 — so such a product sorts last. -/
theorem claim10_display_order_zero_defaults (md : Metadata) (s : String)
    (h1 : md.display_order = some s) (h2 : jsParseInt s = some 0) :
    displayOrderOf md = 999 := by
  simp [displayOrderOf, h1, h2]

/-- Witness for C10 at the concrete string "0". -/
theorem claim10_witness : displayOrderOf ⟨none, none, some "0", none⟩ = 999 :=
  claim10_display_order_zero_defaults ⟨none, none, some "0", none⟩ "0" rfl (by decide)

/-- C4: in the per-product price fold, each billing key ends up holding the
last price in iteration order that maps to it (later silently overwrites
earlier, no error), and the key mapping is: recurring with interval
`month` → `monthly`, recurring with any other interval → `yearly`, no
recurring descriptor → `one_time`. -/
theorem claim4_interval_keys_last_wins (ps : List RawPrice) (k : String) :
    variationAt (buildVariations ps) k =
      ((ps.filter (fun p => priceKey p == k)).getLast?).map toVariant ∧
    (∀ (p : RawPrice) (r : Recurring), priceKey { p with recurring := some r } =
      (if r.interval = "month" then "monthly" else "yearly")) ∧
    (∀ p : RawPrice, priceKey { p with recurring := none } = "one_time") := by
  refine ⟨?_, ?_, ?_⟩
  · rw [variationAt_buildVariations, getLast?_filter]
  · intro p r
    simp [priceKey]
  · intro p
    simp [priceKey]



/-- C3 (amended): the organizer emits exactly one plan per input product —
the output length equals the input list length; when the input product
identifiers are distinct this equals the number of distinct identifiers. -/
theorem claim3_one_plan_per_product (jp : JsonParse) (ps : List RawProduct)
    (prs : List RawPrice) (cat : Catalog)
    (h : organizeProductCatalog jp ps prs = some cat) :
    cat.products.length = ps.length ∧
    ((ps.map RawProduct.id).Nodup →
      cat.products.length = (ps.map RawProduct.id).dedup.length) := by
  rw [organizeProductCatalog] at h
  cases hloop : organizeLoop jp prs ps [] [] with
  | none => rw [hloop] at h; exact absurd h (by simp)
  | some x =>
    obtain ⟨plans, index⟩ := x
    rw [hloop] at h
    simp only [Option.some.injEq] at h
    subst h
    have hm := organizeLoop_map_id jp prs ps [] [] plans index hloop
    have hlen : plans.length = ps.length := by
      have h2 := congrArg List.length hm
      simpa using h2
    constructor
    · simpa using hlen
    · intro hnd
      rw [List.dedup_eq_self.mpr hnd]
      simpa using hlen

/-- C3 counterexample: on an input repeating the same product record twice,
the organizer emits two plans while the input has one distinct product
identifier — output length tracks the input length, not the distinct
count. -/
theorem claim3_counterexample :
    (organizeProductCatalog jpEmpty [exProduct, exProduct] []).map
        (fun c => c.products.length) = some 2 ∧
    ([exProduct, exProduct].map RawProduct.id).dedup.length = 1 := by
  exact ⟨rfl, rfl⟩

/-- Witness for C3 at a concrete two-product input. -/
theorem claim3_witness :
    exCat.products.length = [exProduct, exProduct2].length ∧
    (([exProduct, exProduct2].map RawProduct.id).Nodup →
      exCat.products.length = ([exProduct, exProduct2].map RawProduct.id).dedup.length) :=
  claim3_one_plan_per_product jpEmpty [exProduct, exProduct2] [] exCat rfl

/-- C2: a failed refresh is atomic — whether the gateway fetch fails or the
organize pass fails on malformed features JSON, the stored cache is left
exactly as it was (no partial catalog published) and the error is the
value surfaced to the refresh's caller. -/
theorem claim2_refresh_atomic_on_failure (jp : JsonParse) (gw : GatewayResult)
    (st : CacheState) (now : Int) :
    (∀ e, (fetchProducts jp gw st now).2 = Except.error e →
      (fetchProducts jp gw st now).1 = st) ∧
    (∀ msg, gw = Except.error msg →
      fetchProducts jp gw st now = (st, Except.error (FetchError.gatewayFailure msg))) ∧
    (∀ ps prs, gw = Except.ok (ps, prs) → organizeProductCatalog jp ps prs = none →
      fetchProducts jp gw st now = (st, Except.error FetchError.organizeFailure)) := by
  refine ⟨?_, ?_, ?_⟩
  · intro e he
    rcases gw with msg | ⟨ps, prs⟩
    · rfl
    · rw [fetchProducts] at he ⊢
      cases ho : organizeProductCatalog jp ps prs with
      | none => rfl
      | some cat =>
        rw [ho] at he
        simp at he
  · intro msg h
    subst h
    rfl
  · intro ps prs h ho
    subst h
    rw [fetchProducts, ho]

/-- Witness for C2: both failure modes at concrete inputs. -/
theorem claim2_witness :
    fetchProducts jpEmpty (Except.error "boom") initialCache 5 =
      (initialCache, Except.error (FetchError.gatewayFailure "boom")) ∧
    fetchProducts jpFail (Except.ok ([exBadProduct], [])) initialCache 5 =
      (initialCache, Except.error FetchError.organizeFailure) :=
  ⟨(claim2_refresh_atomic_on_failure jpEmpty (Except.error "boom") initialCache 5).2.1
      "boom" rfl,
   (claim2_refresh_atomic_on_failure jpFail (Except.ok ([exBadProduct], [])) initialCache 5).2.2
      [exBadProduct] [] rfl rfl⟩



/-- C5: the organizer never synthesizes a billing cycle — whenever a key of
some output plan's prices mapping is populated, some input price actually
matches that plan's product (by the strict-equality filter) and maps to
that key under the interval fold. -/
theorem claim5_no_synthesized_cycles (jp : JsonParse) (ps : List RawProduct)
    (prs : List RawPrice) (cat : Catalog)
    (h : organizeProductCatalog jp ps prs = some cat)
    (plan : Plan) (hp : plan ∈ cat.products) (k : String)
    (hk : (variationAt plan.prices k).isSome = true) :
    ∃ pr ∈ prs, refMatches pr.product plan.id = true ∧ priceKey pr = k := by
  rw [organizeProductCatalog] at h
  cases hloop : organizeLoop jp prs ps [] [] with
  | none => rw [hloop] at h; exact absurd h (by simp)
  | some x =>
    obtain ⟨plans, index⟩ := x
    rw [hloop] at h
    simp only [Option.some.injEq] at h
    subst h
    have hp2 : plan ∈ plans := (List.mem_insertionSort planLe).mp hp
    rcases organizeLoop_shape jp prs ps [] [] plans index hloop plan hp2 with
      h0 | ⟨product, _hprod, hid, hpr⟩
    · cases h0
    · rw [hpr, variationAt_buildVariations] at hk
      cases hfind : (prs.filter
          (fun pr => refMatches pr.product product.id)).reverse.find?
          (fun p => priceKey p == k) with
      | none => rw [hfind] at hk; simp at hk
      | some q =>
        have hqmem := List.mem_of_find?_eq_some hfind
        have hqp := List.find?_some hfind
        rw [List.mem_reverse, List.mem_filter] at hqmem
        refine ⟨q, hqmem.1, ?_, ?_⟩
        · rw [hid]
          exact hqmem.2
        · simpa using hqp

/-- Witness for C5 at the concrete one-product, one-monthly-price input. -/
theorem claim5_witness :
    ∃ pr ∈ [exMonthPrice],
      refMatches pr.product exPlanPriced.id = true ∧ priceKey pr = "monthly" :=
  claim5_no_synthesized_cycles jpEmpty [exProduct] [exMonthPrice] exCatPriced rfl
    exPlanPriced (by simp [exCatPriced]) "monthly" rfl

/-- C6: a price whose product reference is an expanded object never passes
the strict-equality product filter, so a product whose only price is
object-referenced organizes into a plan with an empty prices mapping. -/
theorem claim6_object_ref_empty_prices (jp : JsonParse) (p : RawProduct)
    (pr : RawPrice) (i : String) (hpr : pr.product = ProductRef.obj i)
    (feats : List String) (hf : featuresOf jp p.metadata = some feats) :
    refMatches pr.product p.id = false ∧
    ∃ cat, organizeProductCatalog jp [p] [pr] = some cat ∧
      ∃ plan, cat.products = [plan] ∧ plan.id = p.id ∧
        plan.prices = PriceVariations.empty := by
  have hm : refMatches pr.product p.id = false := by
    rw [hpr]
    rfl
  refine ⟨hm, ?_⟩
  simp only [organizeProductCatalog, organizeLoop, hf, List.nil_append]
  refine ⟨_, rfl, _, rfl, rfl, ?_⟩
  simp [List.filter_cons, hm, buildVariations, PriceVariations.empty]



/-- Witness for C6: `exObjPrice` references `exProduct` as an object. -/
theorem claim6_witness :
    refMatches exObjPrice.product exProduct.id = false ∧
    ∃ cat, organizeProductCatalog jpEmpty [exProduct] [exObjPrice] = some cat ∧
      ∃ plan, cat.products = [plan] ∧ plan.id = exProduct.id ∧
        plan.prices = PriceVariations.empty :=
  claim6_object_ref_empty_prices jpEmpty exProduct exObjPrice "prod_123" rfl [] rfl

/-- C9: the organizer's output plan list is sorted by displayOrder in
non-decreasing order; the pre-sort plan list carries the products in input
order (one plan per product), and restricting the sorted output to any
fixed display order yields exactly the pre-sort sequence — ties keep their
original relative order (stable sort). -/
theorem claim9_sorted_stable (jp : JsonParse) (ps : List RawProduct)
    (prs : List RawPrice) (plans : List Plan) (index : PricesIndex) (cat : Catalog)
    (hloop : organizeLoop jp prs ps [] [] = some (plans, index))
    (hcat : organizeProductCatalog jp ps prs = some cat) :
    cat.products.Pairwise planLe ∧
    plans.map Plan.id = ps.map RawProduct.id ∧
    (∀ d : Int, cat.products.filter (fun a => a.displayOrder == d) =
      plans.filter (fun a => a.displayOrder == d)) := by
  rw [organizeProductCatalog, hloop] at hcat
  simp only [Option.some.injEq] at hcat
  subst hcat
  refine ⟨List.sorted_insertionSort planLe plans, ?_, ?_⟩
  · have h2 := organizeLoop_map_id jp prs ps [] [] plans index hloop
    simpa using h2
  · intro d
    exact filter_insertionSort_key plans d

/-- Witness for C9 at a concrete input with a display-order tie. -/
theorem claim9_witness :
    exCat.products.Pairwise planLe ∧
    [exPlan1, exPlan2].map Plan.id = [exProduct, exProduct2].map RawProduct.id ∧
    (∀ d : Int, exCat.products.filter (fun a => a.displayOrder == d) =
      [exPlan1, exPlan2].filter (fun a => a.displayOrder == d)) :=
  claim9_sorted_stable jpEmpty [exProduct, exProduct2] [] [exPlan1, exPlan2]
    [("essential", PriceVariations.empty), ("pro", PriceVariations.empty)] exCat rfl rfl



/-- C1 counterexample: when a successful refresh stores an empty product
list, a second `get(false)` issued immediately afterwards (well within the
5-minute TTL) still performs a gateway fetch — two fetches across the two
calls, and the second does not simply return the stored snapshot. -/
theorem claim1_counterexample :
    getFetchCount initialCache 1000 false = 1 ∧
    getProductCatalog jpEmpty (Except.ok ([], [])) initialCache 1000 false =
      (exEmptyFetched, Except.ok exEmptyFetched) ∧
    (1001 : Int) - 1000 ≤ exEmptyFetched.cacheExpiry ∧
    getFetchCount exEmptyFetched 1001 false = 1 := by
  refine ⟨rfl, rfl, by decide, rfl⟩

/-- C1 (amended): after a `get(false)` that performed a successful refresh
storing a nonempty product list at a nonzero time, a second `get(false)`
within the TTL performs no fetch and returns the stored snapshot
unchanged, so exactly one fetch happens across the two calls; and every
`get(true)` performs exactly one fetch regardless of cache state. -/
theorem claim1_single_fetch_within_ttl (jp : JsonParse) (gw : GatewayResult)
    (st0 st1 : CacheState) (t0 now : Int)
    (hfirst : getDoesFetch st0 t0 false = true)
    (hfetch : fetchProducts jp gw st0 t0 = (st1, Except.ok st1))
    (hne : st1.products ≠ [])
    (ht0 : 0 < t0)
    (httl : now - t0 ≤ 5 * 60 * 1000) :
    getFetchCount st0 t0 false = 1 ∧
    getProductCatalog jp gw st0 t0 false = (st1, Except.ok st1) ∧
    getFetchCount st1 now false = 0 ∧
    (∀ (jp2 : JsonParse) (gw2 : GatewayResult),
      getProductCatalog jp2 gw2 st1 now false = (st1, Except.ok st1)) ∧
    (∀ (s : CacheState) (n : Int), getFetchCount s n true = 1) := by
  have hst1 : st1.lastUpdated = some t0 ∧ st1.cacheExpiry = 5 * 60 * 1000 := by
    rcases gw with msg | ⟨ps, prs⟩
    · simp [fetchProducts] at hfetch
    · rw [fetchProducts] at hfetch
      cases ho : organizeProductCatalog jp ps prs with
      | none =>
        rw [ho] at hfetch
        simp at hfetch
      | some cat =>
        rw [ho] at hfetch
        simp only [Prod.mk.injEq] at hfetch
        rw [← hfetch.1]
        exact ⟨rfl, rfl⟩
  have hexp : cacheExpired st1 now = false := by
    have h0 : ¬(t0 = 0) := by omega
    have h2 : ¬(now - t0 > st1.cacheExpiry) := by
      rw [hst1.2]
      omega
    simp [cacheExpired, hst1.1, h0, h2]
  have hlen : (st1.products.length == 0) = false := by
    simp only [beq_eq_false_iff_ne, ne_eq, List.length_eq_zero]
    exact hne
  have hd : getDoesFetch st1 now false = false := by
    simp [getDoesFetch, hexp, hlen]
  refine ⟨?_, ?_, ?_, ?_, ?_⟩
  · simp [getFetchCount, hfirst]
  · simp [getProductCatalog, hfirst, hfetch]
  · simp [getFetchCount, hd]
  · intro jp2 gw2
    simp [getProductCatalog, hd]
  · intro s n
    simp [getFetchCount, getDoesFetch]

/-- Witness for C1 (amended) at a concrete refresh storing one product. -/
theorem claim1_witness :
    getFetchCount initialCache 1000 false = 1 ∧
    getProductCatalog jpEmpty (Except.ok ([exProduct], [exMonthPrice]))
        initialCache 1000 false = (exFreshCache, Except.ok exFreshCache) ∧
    getFetchCount exFreshCache 1001 false = 0 ∧
    (∀ (jp2 : JsonParse) (gw2 : GatewayResult),
      getProductCatalog jp2 gw2 exFreshCache 1001 false =
        (exFreshCache, Except.ok exFreshCache)) ∧
    (∀ (s : CacheState) (n : Int), getFetchCount s n true = 1) :=
  claim1_single_fetch_within_ttl jpEmpty (Except.ok ([exProduct], [exMonthPrice]))
    initialCache exFreshCache 1000 1001 rfl rfl (by decide) (by decide) (by decide)



/-- C7 counterexample: a read against a never-populated catalog whose
triggered refresh fails returns a 500 error response, not an empty plan
list. -/
theorem claim7_counterexample :
    handleGetProducts jpEmpty (Except.error "gateway down") initialCache 1000 false =
      (initialCache,
        ProductsResponse.serverError (FetchError.gatewayFailure "gateway down")) := rfl

/-- C7 (amended): a read against a never-populated catalog always triggers
a refresh; if the gateway fails the read surfaces an error response, and
if it succeeds with no products the read returns an empty plan list. -/
theorem claim7_never_populated_read (jp : JsonParse) (gw : GatewayResult)
    (st : CacheState) (now : Int) (hst : st.lastUpdated = none) :
    getDoesFetch st now false = true ∧
    (∀ msg, gw = Except.error msg →
      handleGetProducts jp gw st now false =
        (st, ProductsResponse.serverError (FetchError.gatewayFailure msg))) ∧
    (∀ prs, gw = Except.ok ([], prs) →
      handleGetProducts jp gw st now false =
        ({ products := [], prices := [], lastUpdated := some now,
           cacheExpiry := 5 * 60 * 1000 },
         ProductsResponse.success [] (some now) (5 * 60 * 1000))) := by
  have hd : getDoesFetch st now false = true := by
    simp [getDoesFetch, cacheExpired, hst]
  refine ⟨hd, ?_, ?_⟩
  · intro msg h
    subst h
    simp [handleGetProducts, getProductCatalog, hd, fetchProducts]
  · intro prs h
    subst h
    simp [handleGetProducts, getProductCatalog, hd, fetchProducts,
      organizeProductCatalog, organizeLoop]

/-- Witness for C7 (amended) on the initial cache. -/
theorem claim7_witness :
    getDoesFetch initialCache 7 false = true ∧
    handleGetProducts jpEmpty (Except.error "down") initialCache 7 false =
      (initialCache, ProductsResponse.serverError (FetchError.gatewayFailure "down")) ∧
    handleGetProducts jpEmpty (Except.ok ([], [])) initialCache 7 false =
      ({ products := [], prices := [], lastUpdated := some 7,
         cacheExpiry := 5 * 60 * 1000 },
       ProductsResponse.success [] (some 7) (5 * 60 * 1000)) :=
  ⟨(claim7_never_populated_read jpEmpty (Except.error "down") initialCache 7 rfl).1,
   (claim7_never_populated_read jpEmpty (Except.error "down") initialCache 7 rfl).2.1
     "down" rfl,
   (claim7_never_populated_read jpEmpty (Except.ok ([], [])) initialCache 7 rfl).2.2
     [] rfl⟩

/-- C8 counterexample: on a never-populated cache whose implicit refresh
fails, `validatePriceId` propagates the thrown error instead of returning
the not-found signal. -/
theorem claim8_counterexample :
    validatePriceId jpEmpty (Except.error "down") initialCache 1000 "essential" "monthly" =
      (initialCache, Except.error (FetchError.gatewayFailure "down")) := rfl

/-- C8 (amended): whenever the implicit refresh-if-stale read succeeds,
`validatePriceId` returns the not-found signal (no exception) for every
planId/billingCycle pair absent from the snapshot that read produced; a
failing triggered refresh instead propagates its error. -/
theorem claim8_validate_not_found (jp : JsonParse) (gw : GatewayResult)
    (st st' cat : CacheState) (now : Int) (planId billingCycle : String)
    (hget : getProductCatalog jp gw st now false = (st', Except.ok cat))
    (habs : lookupPrice cat.prices planId billingCycle = none) :
    validatePriceId jp gw st now planId billingCycle = (st', Except.ok none) := by
  simp [validatePriceId, hget, habs]

/-- Witness for C8 (amended): empty-catalog refresh, unknown plan. -/
theorem claim8_witness :
    validatePriceId jpEmpty (Except.ok ([], [])) initialCache 1000 "essential" "monthly" =
      (exEmptyFetched, Except.ok none) :=
  claim8_validate_not_found jpEmpty (Except.ok ([], [])) initialCache exEmptyFetched
    exEmptyFetched 1000 "essential" "monthly" rfl rfl

end StripeServer
